import Mathlib

/-!
Verification of the `latexexpr_efficalc` Python module (file
`latexexpr_efficalc/__init__.py`) through a shallow embedding in Lean.

The embedding follows the Python source:

* `Variable` mirrors the Python `Variable` class: a record of name, optional
  value (a number, or a raw string when float coercion of an assigned value
  fails), unit, format spec, unit-format spec and scientific exponent.
* `Node`/`NodeList` mirror the object graph of `Variable` and `Operation`
  instances: `Node.ref i` is a `Variable` object living in a mutable heap
  (`Store`), so that several parent trees can alias it, while `Node.leafv`
  is a `Variable` object freshly created during construction (promoted
  literal or `Expression` snapshot) that no other tree aliases.
* Numbers are modelled by a linear ordered field (`ℚ` for executable
  witnesses and the string-formatting layer, `ℝ` for the claims about the
  transcendental operators).  Python float formatting (`%.4g`, `%.0f`,
  `f"{x: .4g}"`, `f"{x: .0f}"`) is reimplemented digit by digit over `ℚ`.
* Python exceptions are modelled by `Except PyErr`; `PyErr` separates
  `ZeroDivisionError`, `ValueError`, `TypeError`, `IndexError` and the
  module's own `LaTeXExpressionError`.
-/

namespace LatexExpr

/-! ### Decimal-string utilities (Python number formatting over `ℚ`) -/

/-- Decimal digits of a natural number, as produced by Python `str`/`%d`. -/
def natStr (n : ℕ) : String := Nat.repr n

/-- Decimal string of an integer, as produced by Python `%d`. -/
def intStr (z : ℤ) : String :=
  if z < 0 then "-" ++ natStr z.natAbs else natStr z.natAbs

/-- Number of decimal digits of `n` (at least 1), with explicit fuel so that
the definition is structural and kernel-reducible. -/
def digitCount : ℕ → ℕ → ℕ
  | 0, _ => 1
  | fuel + 1, n => if n < 10 then 1 else digitCount fuel (n / 10) + 1

/-- Number of decimal digits of `n`. -/
def natDigits (n : ℕ) : ℕ := digitCount n n

/-- Round to the nearest integer, ties to even: the rounding mode used by
Python float formatting. -/
def roundHalfEven (q : ℚ) : ℤ :=
  let f := ⌊q⌋
  let r := q - (f : ℚ)
  if r < 1 / 2 then f
  else if 1 / 2 < r then f + 1
  else if f % 2 = 0 then f else f + 1

/-- Python `"%.0f" % q` (no flags): the integer-rounded decimal numeral. -/
def pyF0 (q : ℚ) : String :=
  if q < 0 then "-" ++ natStr (roundHalfEven q).natAbs
  else natStr (roundHalfEven q).natAbs

/-- Python `f"{q: .0f}"`: as `pyF0` but with the space flag, which prefixes
one space to non-negative numbers. -/
def pyF0space (q : ℚ) : String := if q < 0 then pyF0 q else " " ++ pyF0 q

/-- For `0 < q < 1`, the smallest `k ≥ k0` with `1 ≤ q * 10 ^ k`, searched
with explicit fuel. -/
def fracExpAux : ℕ → ℚ → ℕ → ℕ
  | 0, _, k => k
  | fuel + 1, q, k => if 1 ≤ q * 10 ^ k then k else fracExpAux fuel q (k + 1)

/-- Decimal exponent of `q > 0`: the unique `d` with `10 ^ d ≤ q < 10 ^ (d+1)`
(for `q ≥ 1` read off the digit count of `⌊q⌋`; for `q < 1` search for the
first power of ten pushing `q` above 1). -/
def decExp (q : ℚ) : ℤ :=
  if 1 ≤ q then (natDigits (⌊q⌋).toNat : ℤ) - 1
  else -(fracExpAux (natDigits q.den + 1) q 1 : ℤ)

/-- Mantissa (4 significant digits, in `[1000, 9999]`) and decimal exponent
of `q > 0`, rounding half to even and renormalising when rounding overflows
to `10000`. -/
def sig4 (q : ℚ) : ℤ × ℤ :=
  let d := decExp q
  let m := roundHalfEven (q * (10 : ℚ) ^ (3 - d))
  if m = 10000 then (1000, d + 1) else (m, d)

/-- Remove trailing `'0'` characters. -/
def dropTrailingZeros (l : List Char) : List Char :=
  (l.reverse.dropWhile (· = '0')).reverse

/-- At least two decimal digits, zero-padded: the exponent field of Python
scientific notation. -/
def pad2 (n : ℕ) : String := if n < 10 then "0" ++ natStr n else natStr n

/-- Fixed-point rendering of a positive number with 4-digit mantissa `m` and
decimal exponent `d` (`-4 ≤ d < 4`), trailing zeros of the fractional part
stripped, as produced by Python `%.4g`. -/
def g4Fixed (m : ℕ) (d : ℤ) : String :=
  let ds := (natStr m).data
  if 3 ≤ d then String.mk (ds ++ List.replicate (d - 3).toNat '0')
  else if 0 ≤ d then
    let k := (d + 1).toNat
    let frac := dropTrailingZeros (ds.drop k)
    String.mk (ds.take k ++ (if frac = [] then [] else '.' :: frac))
  else
    String.mk ('0' :: '.' :: dropTrailingZeros (List.replicate (-d - 1).toNat '0' ++ ds))

/-- Scientific rendering of a positive number with 4-digit mantissa `m` and
decimal exponent `d`, as produced by Python `%.4g` when `d < -4` or `4 ≤ d`. -/
def g4Sci (m : ℕ) (d : ℤ) : String :=
  let ds := (natStr m).data
  let frac := dropTrailingZeros (ds.drop 1)
  String.mk (ds.take 1 ++ (if frac = [] then [] else '.' :: frac))
    ++ "e" ++ (if d < 0 then "-" else "+") ++ pad2 d.natAbs

/-- Python `"%.4g" % q` (no flags): 4 significant digits, fixed-point when
the decimal exponent lies in `[-4, 3]` and scientific otherwise. -/
def pyG4 (q : ℚ) : String :=
  if q = 0 then "0"
  else
    let a := if q < 0 then -q else q
    let md := sig4 a
    let body := if md.2 < -4 ∨ 4 ≤ md.2 then g4Sci md.1.toNat md.2 else g4Fixed md.1.toNat md.2
    if q < 0 then "-" ++ body else body

/-- Python `f"{q: .4g}"`: as `pyG4` but with the space flag. -/
def pyG4space (q : ℚ) : String := if q < 0 then pyG4 q else " " ++ pyG4 q

/-- Substitute `arg` for the first `%s` of `fmt` (character list form). -/
def substFirstS : List Char → String → List Char
  | [], _ => []
  | '%' :: 's' :: rest, arg => arg.data ++ rest
  | c :: rest, arg => c :: substFirstS rest arg

/-- Python `fmt % arg` for a format string with one `%s` placeholder (as the
module uses for `unitFormat`, e.g. `\mathrm{%s}`). -/
def pyFormatS (fmt arg : String) : String := String.mk (substFirstS fmt.data arg)

/-- Python `fmt % q` for the float format specs the module itself installs
(`%.4g`, `%.0f`, `%d`).  `%d` truncates toward zero.  Other specs are not
interpreted and fall back to `%.4g`; no claim exercises them. -/
def pyFormatNum (fmt : String) (q : ℚ) : String :=
  if fmt = "%d" then intStr (q.num / (q.den : ℤ))
  else if fmt = "%.0f" then pyF0 q
  else pyG4 q

/-- Python `str.strip()` (whitespace as recognised by `Char.isWhitespace`). -/
def pyStrip (s : String) : String :=
  String.mk ((s.data.dropWhile Char.isWhitespace).reverse.dropWhile Char.isWhitespace).reverse

/-! ### Python `float(str)` coercion -/

/-- Digit-string value: `some (value, digit count)` when every character is a
decimal digit (the empty string giving `some (0, 0)`), else `none`. -/
def parseDigits : List Char → ℕ → ℕ → Option (ℕ × ℕ)
  | [], acc, n => some (acc, n)
  | c :: cs, acc, n =>
    if c.isDigit then parseDigits cs (10 * acc + (c.toNat - 48)) (n + 1) else none

/-- Mantissa of a float literal: digits with at most one decimal point and at
least one digit overall. -/
def parseMantissa (l : List Char) : Option ℚ :=
  match List.splitOn '.' l with
  | [ip] =>
    match parseDigits ip 0 0 with
    | some (v, n) => if n = 0 then none else some (v : ℚ)
    | none => none
  | [ip, fp] =>
    match parseDigits ip 0 0, parseDigits fp 0 0 with
    | some (vi, ni), some (vf, nf) =>
      if ni + nf = 0 then none else some ((vi : ℚ) + (vf : ℚ) / 10 ^ nf)
    | _, _ => none
  | _ => none

/-- Optional sign, applied to the rest of the characters. -/
def parseSign (l : List Char) : ℚ × List Char :=
  match l with
  | '+' :: r => (1, r)
  | '-' :: r => (-1, r)
  | r => (1, r)

/-- Exponent of a float literal: optional sign and at least one digit. -/
def parseExp (l : List Char) : Option ℤ :=
  let sr := parseSign l
  match parseDigits sr.2 0 0 with
  | some (v, n) => if n = 0 then none else some (if sr.1 < 0 then -(v : ℤ) else (v : ℤ))
  | none => none

/-- Python `float(s)` on a string, `none` when the coercion raises
`ValueError`.  Whitespace is stripped and case folded for the exponent
marker; the special forms `inf`/`nan` and digit-group underscores are not
modelled (no claim exercises them). -/
def pyParseFloat (s : String) : Option ℚ :=
  let sr := parseSign (pyStrip s).data
  match List.splitOn 'e' (sr.2.map Char.toLower) with
  | [mant] => (parseMantissa mant).map (fun q => sr.1 * q)
  | [mant, ex] =>
    match parseMantissa mant, parseExp ex with
    | some q, some z => some (sr.1 * q * (10 : ℚ) ^ z)
    | _, _ => none
  | _ => none

/-! ### Errors -/

/-- Python exceptions the module can raise: its own `LaTeXExpressionError`,
and the interpreter's `TypeError`, `ValueError`, `ZeroDivisionError` and
`IndexError`. -/
inductive PyErr where
  | latexExpr
  | typeErr
  | valueErr
  | zeroDiv
  | indexErr

/-! ### The `Variable` class -/

/-- The Python `Variable` class: symbolic name, optional value (`Sum.inl` a
number, `Sum.inr` a raw string kept by `_set_value` when float coercion
fails), unit label, format spec, unit-format spec and scientific exponent. -/
structure Variable (α : Type) where
  name : String
  value : Option (α ⊕ String)
  unit : String
  format : String
  unitFormat : String
  exponent : ℤ

/-- `Variable.is_symbolic`: the value is absent. -/
def Variable.is_symbolic {α : Type} (v : Variable α) : Bool := v.value.isNone

/-- `float(variable)` = `Variable.result`: the numeric value, raising
`LaTeXExpressionError` when symbolic (and `TypeError` via `__float__` when
the stored value is a raw string). -/
def Variable.float {α : Type} (v : Variable α) : Except PyErr α :=
  match v.value with
  | none => .error .latexExpr
  | some (Sum.inl q) => .ok q
  | some (Sum.inr _) => .error .typeErr

/-- `Variable.str_symbolic`: the brace-wrapped name. -/
def Variable.str_symbolic {α : Type} (v : Variable α) : String :=
  "\x7b" ++ v.name ++ "\x7d"

/-- `Variable.set_format`: derive the default format spec from the magnitude
of the current value (`%.4g` below 1000, `%.0f` otherwise); keep the format
unchanged when the value is absent or is a string that fails float
coercion.  Called by the constructor only. -/
def Variable.set_format (v : Variable ℚ) : Variable ℚ :=
  match v.value with
  | none => v
  | some (Sum.inl q) =>
    if q < 1000 then { v with format := "%.4g" } else { v with format := "%.0f" }
  | some (Sum.inr s) =>
    match pyParseFloat s with
    | some q => if q < 1000 then { v with format := "%.4g" } else { v with format := "%.0f" }
    | none => v

/-- The `Variable` constructor: store the fields, then call `set_format`. -/
def Variable.init (name : String) (value : Option ℚ) (unit format unitFormat : String)
    (exponent : ℤ) : Variable ℚ :=
  Variable.set_format
    { name := name, value := value.map Sum.inl, unit := unit, format := format,
      unitFormat := unitFormat, exponent := exponent }

/-- A value assigned through the Python `value` property: `None`, a number,
or a string. -/
inductive PyAssign where
  | null
  | num (q : ℚ)
  | str (s : String)

/-- `Variable._set_value` (the `value` property setter): store `None`
directly, coerce everything else with `float`, and on `ValueError` store the
stripped string instead.  Note that it does not call `set_format`. -/
def Variable.set_value (v : Variable ℚ) : PyAssign → Variable ℚ
  | .null => { v with value := none }
  | .num q => { v with value := some (Sum.inl q) }
  | .str s =>
    match pyParseFloat s with
    | some q => { v with value := some (Sum.inl q) }
    | none => { v with value := some (Sum.inr (pyStrip s)) }

/-- `Variable.str_result`: the symbolic name when symbolic; a raw string
value verbatim behind one space; otherwise the magnitude-dispatched
`f"{r: .4g}"`/`f"{r: .0f}"` renderings (with parenthesization of negatives)
when the effective exponent is 0, and the `mantissa \cdot 10^{e}` scientific
form otherwise. -/
def Variable.str_result (v : Variable ℚ) (format : String) (exponent : ℤ) : String :=
  match v.value with
  | none => v.str_symbolic
  | some result =>
    let f := if format = "" then v.format else format
    let e := if exponent = 0 then v.exponent else exponent
    match result with
    | Sum.inr s => " " ++ s
    | Sum.inl q =>
      if e = 0 then
        if q < -1000 then "\\left( " ++ pyF0space q ++ " \\right)"
        else if q < 0 then "\\left( " ++ pyG4space q ++ " \\right)"
        else if q < 1000 then pyG4space q
        else pyF0space q
      else
        let val := q * (10 : ℚ) ^ (-e)
        if q < 0 then
          "\\left( " ++ pyFormatNum f val ++ " \\cdot 10^\x7b" ++ intStr e ++ "\x7d \\right)"
        else "\x7b " ++ pyFormatNum f val ++ " \\cdot 10^\x7b" ++ intStr e ++ "\x7d \x7d"

/-- `Variable.str_result_with_unit`: the result followed by the formatted
unit. -/
def Variable.str_result_with_unit (v : Variable ℚ) : String :=
  v.str_result "" 0 ++ " \\ " ++ pyFormatS v.unitFormat v.unit

/-- `Variable.str_substituted` delegates to `str_result_with_unit`. -/
def Variable.str_substituted (v : Variable ℚ) : String := v.str_result_with_unit

/-- The default `unitFormat` string of the module. -/
def mathrmFmt : String := "\\mathrm\x7b%s\x7d"

/-! ### The object graph: trees of `Variable` and `Operation` instances -/

mutual
/-- A node of an expression tree.  `ref i` is a `Variable` object stored in
the mutable heap (`Store`) — `Operation.__check_args` appends `Variable`
arguments by reference, so such a leaf may be aliased by several parent
trees and observes later `value` assignments.  `leafv v` is a `Variable`
object created fresh during node construction (a promoted literal or an
`Expression` snapshot), which no other tree aliases.  `op t args` is an
`Operation` with its operator tag and its ordered children. -/
inductive Node (α : Type) where
  | leafv (v : Variable α)
  | ref (i : ℕ)
  | op (t : String) (args : NodeList α)
inductive NodeList (α : Type) where
  | nil
  | cons (hd : Node α) (tl : NodeList α)
end

/-- The mutable heap of `Variable` objects, indexed by object identity. -/
def Store (α : Type) : Type := ℕ → Variable α

/-- Replace the heap object at index `k` (a Python attribute assignment on
the `Variable` object aliased as `ref k`). -/
def Store.set {α : Type} (σ : Store α) (k : ℕ) (v : Variable α) : Store α :=
  fun i => if i = k then v else σ i

/-- Assign through the `value` property of the heap variable `k`. -/
def Store.setValue (σ : Store ℚ) (k : ℕ) (x : PyAssign) : Store ℚ :=
  σ.set k ((σ k).set_value x)

/-- Number of children. -/
def nlLength {α : Type} : NodeList α → ℕ
  | .nil => 0
  | .cons _ tl => nlLength tl + 1

/-- The children as a `List`. -/
def nlToList {α : Type} : NodeList α → List (Node α)
  | .nil => []
  | .cons hd tl => hd :: nlToList tl

/-- A `List` of children as a `NodeList`. -/
def listToNL {α : Type} : List (Node α) → NodeList α
  | [] => .nil
  | hd :: tl => .cons hd (listToNL tl)

/-- `_supportedOperations1`: the unary operator tags. -/
def supportedOperations1 : List String :=
  ["", "neg", "pos", "abs", "sqr", "sqrt", "sin", "cos", "tan", "sinh", "cosh",
   "tanh", "exp", "ln", "log10", "()", "[]", "\x7b\x7d", "<>"]

/-- `_supportedOperations2`: the binary operator tags. -/
def supportedOperations2 : List String := ["-", "/", "//", "pow", "root", "log"]

/-- `_supportedOperationsN`: the n-ary operator tags. -/
def supportedOperationsN : List String := ["+", "*", "max", "min"]

/-- `_supportedOperations`: all operator tags. -/
def supportedOperations : List String :=
  supportedOperations1 ++ supportedOperations2 ++ supportedOperationsN

/-- The transcendental primitives of the host `math` library, abstracted so
that evaluation can be instantiated with the real functions (for the
semantic claims) or with dummies over `ℚ` (for executable witnesses). -/
structure MathPrims (α : Type) where
  sqrt : α → α
  sin : α → α
  cos : α → α
  tan : α → α
  sinh : α → α
  cosh : α → α
  tanh : α → α
  exp : α → α
  log : α → α
  pow : α → α → α

/-- The standard real-valued functions of the `math` module. -/
noncomputable def realPrims : MathPrims ℝ :=
  { sqrt := Real.sqrt, sin := Real.sin, cos := Real.cos, tan := Real.tan,
    sinh := Real.sinh, cosh := Real.cosh, tanh := Real.tanh, exp := Real.exp,
    log := Real.log, pow := fun a b => a ^ b }

/-- Dummy primitives over `ℚ`, for executable witnesses that exercise only
the field operations. -/
def ratPrims : MathPrims ℚ :=
  { sqrt := fun _ => 0, sin := fun _ => 0, cos := fun _ => 0, tan := fun _ => 0,
    sinh := fun _ => 0, cosh := fun _ => 0, tanh := fun _ => 0, exp := fun _ => 0,
    log := fun _ => 0, pow := fun _ _ => 0 }

mutual
/-- `is_symbolic` over the tree: a `Variable` is symbolic when its value is
absent; an `Operation` is symbolic when any child is. -/
def nodeIsSymbolic {α : Type} (σ : Store α) : Node α → Bool
  | .leafv v => v.is_symbolic
  | .ref i => (σ i).is_symbolic
  | .op _ args => listIsSymbolic σ args
def listIsSymbolic {α : Type} (σ : Store α) : NodeList α → Bool
  | .nil => false
  | .cons a tl => nodeIsSymbolic σ a || listIsSymbolic σ tl
end

mutual
/-- Declared arity of an operator tag: unary tags take 1 child, binary tags
2, n-ary tags at least 2 (from the spec's data-model invariant; the Python
constructor never checks this). -/
def arityOk (t : String) (n : ℕ) : Bool :=
  if t ∈ supportedOperations1 then n = 1
  else if t ∈ supportedOperations2 then n = 2
  else if t ∈ supportedOperationsN then 2 ≤ n
  else false

/-- A tree every operation node of which has a recognised tag and a child
count matching the tag's declared arity. -/
def nodeWF {α : Type} : Node α → Bool
  | .leafv _ => true
  | .ref _ => true
  | .op t args => arityOk t (nlLength args) && listWF args
def listWF {α : Type} : NodeList α → Bool
  | .nil => true
  | .cons a tl => nodeWF a && listWF tl
end

/-- The n-ary reducers of `Operation.result`: `sum` (a left fold from 0),
`reduce(lambda x, y: x * y, v, 1.0)` (a left fold from 1), and `max`/`min`
(which raise `ValueError` on an empty sequence). -/
def applyOpN {α : Type} [LinearOrderedField α] (t : String) (vs : List α) :
    Except PyErr α :=
  if t = "+" then .ok (vs.foldl (· + ·) 0)
  else if t = "*" then .ok (vs.foldl (· * ·) 1)
  else if t = "max" then
    match vs with
    | [] => .error .valueErr
    | v0 :: vr => .ok (vr.foldl max v0)
  else if t = "min" then
    match vs with
    | [] => .error .valueErr
    | v0 :: vr => .ok (vr.foldl min v0)
  else .error .latexExpr

/-- The binary reducers of `Operation.result`.  Division and floor division
raise `ZeroDivisionError` on a zero denominator, as does `root` on a zero
index (`1.0 / v0`); `log` propagates the `math.log` domain errors and then
divides by `log` of the base (zero for base 1, raising
`ZeroDivisionError`).  `math.pow` domain failures (negative base with
fractional exponent) are not modelled. -/
def applyOp2 {α : Type} [LinearOrderedField α] [FloorRing α] (P : MathPrims α)
    (t : String) (v0 v1 : α) : Except PyErr α :=
  if t = "-" then .ok (v0 - v1)
  else if t = "/" then (if v1 = 0 then .error .zeroDiv else .ok (v0 / v1))
  else if t = "//" then (if v1 = 0 then .error .zeroDiv else .ok ((⌊v0 / v1⌋ : ℤ) : α))
  else if t = "pow" then .ok (P.pow v0 v1)
  else if t = "root" then (if v0 = 0 then .error .zeroDiv else .ok (P.pow v1 (1 / v0)))
  else if t = "log" then
    (if v1 ≤ 0 then .error .valueErr
     else if v0 ≤ 0 then .error .valueErr
     else if P.log v0 = 0 then .error .zeroDiv
     else .ok (P.log v1 / P.log v0))
  else .error .latexExpr

/-- The unary reducers of `Operation.result`: identity and the four bracket
kinds pass the value through, `math.sqrt` raises `ValueError` on a negative
argument, `math.log` on a non-positive one. -/
def applyOp1 {α : Type} [LinearOrderedField α] (P : MathPrims α) (t : String)
    (v : α) : Except PyErr α :=
  if t = "" then .ok v
  else if t = "neg" then .ok (-v)
  else if t = "pos" then .ok v
  else if t = "abs" then .ok |v|
  else if t = "sqr" then .ok (P.pow v 2)
  else if t = "sqrt" then (if v < 0 then .error .valueErr else .ok (P.sqrt v))
  else if t = "sin" then .ok (P.sin v)
  else if t = "cos" then .ok (P.cos v)
  else if t = "tan" then .ok (P.tan v)
  else if t = "sinh" then .ok (P.sinh v)
  else if t = "cosh" then .ok (P.cosh v)
  else if t = "tanh" then .ok (P.tanh v)
  else if t = "exp" then .ok (P.exp v)
  else if t = "ln" then (if v ≤ 0 then .error .valueErr else .ok (P.log v))
  else if t = "log10" then (if v ≤ 0 then .error .valueErr else .ok (P.log v / P.log 10))
  else if t = "()" then .ok v
  else if t = "[]" then .ok v
  else if t = "\x7b\x7d" then .ok v
  else if t = "<>" then .ok v
  else .error .latexExpr

/-- The reducer dispatch of `Operation.result`: n-ary tags first, then
binary (reading `a[0]`, `a[1]`, `IndexError` when absent), then unary, then
the closing `LaTeXExpressionError`. -/
def applyOp {α : Type} [LinearOrderedField α] [FloorRing α] (P : MathPrims α)
    (t : String) (vs : List α) : Except PyErr α :=
  if t ∈ supportedOperationsN then applyOpN t vs
  else if t ∈ supportedOperations2 then
    match vs with
    | v0 :: v1 :: _ => applyOp2 P t v0 v1
    | _ => .error .indexErr
  else if t ∈ supportedOperations1 then
    match vs with
    | v0 :: _ => applyOp1 P t v0
    | _ => .error .indexErr
  else .error .latexExpr

mutual
/-- `float(node)`: dispatches to `Variable.result` on leaves and to
`Operation.result` on operation nodes.  For a recognised tag the children
are evaluated left to right (the first failure propagating, as when the
Python reducers consume the `float(arg)` generator) and the per-arity
reducer is applied to their values; an unrecognised tag raises
`LaTeXExpressionError` without touching the children.  One deviation from
the source: an operation node with more children than its tag's arity
evaluates them all here, while Python would evaluate only the ones the
reducer reads — indistinguishable on trees whose child counts match the
declared arities. -/
def nodeFloat {α : Type} [LinearOrderedField α] [FloorRing α] (P : MathPrims α)
    (σ : Store α) : Node α → Except PyErr α
  | .leafv v => v.float
  | .ref i => (σ i).float
  | .op t args =>
    if t ∈ supportedOperations then
      match listFloat P σ args with
      | .error e => .error e
      | .ok vs => applyOp P t vs
    else .error .latexExpr
def listFloat {α : Type} [LinearOrderedField α] [FloorRing α] (P : MathPrims α)
    (σ : Store α) : NodeList α → Except PyErr (List α)
  | .nil => .ok []
  | .cons a tl =>
    match nodeFloat P σ a with
    | .error e => .error e
    | .ok v =>
      match listFloat P σ tl with
      | .error e => .error e
      | .ok vs => .ok (v :: vs)
end

/-! ### Rendering -/

/-- The two string renderings shared by `Operation.__str`: which child
method (`str_symbolic` or `str_substituted`) the recursive renderer calls. -/
inductive StrMode where
  | symbolic
  | substituted

/-- `Variable.str_symbolic` or `Variable.str_substituted`, per mode. -/
def varStr (m : StrMode) (v : Variable ℚ) : String :=
  match m with
  | .symbolic => v.str_symbolic
  | .substituted => v.str_substituted

/-- The n-ary rendering templates of `Operation.__str`. -/
def strTemplateN (t : String) (v : List String) : String :=
  if t = "+" then String.intercalate " + " v
  else if t = "*" then String.intercalate " \\cdot " v
  else if t = "max" then "\\max\x7b\\left( " ++ String.intercalate ", " v ++ " \\right)\x7d"
  else if t = "min" then "\\min\x7b\\left( " ++ String.intercalate ", " v ++ " \\right)\x7d"
  else ""

/-- The binary rendering templates of `Operation.__str`. -/
def strTemplate2 (t : String) (v0 v1 : String) : String :=
  if t = "-" then v0 ++ " - " ++ v1
  else if t = "/" then "\\frac\x7b " ++ v0 ++ " \x7d\x7b " ++ v1 ++ " \x7d"
  else if t = "//" then
    "\\left \\lfloor \\frac\x7b " ++ v0 ++ " \x7d\x7b " ++ v1 ++ " \x7d \\right \\rfloor"
  else if t = "pow" then "\x7b\\left( " ++ v0 ++ " \\right)\x7d^\x7b " ++ v1 ++ " \x7d"
  else if t = "root" then "\\sqrt[ " ++ v0 ++ " ]\x7b " ++ v1 ++ " \x7d"
  else if t = "log" then "\\log_\x7b " ++ v0 ++ " \x7d\x7b " ++ v1 ++ " \x7d"
  else ""

/-- The unary rendering templates of `Operation.__str`. -/
def strTemplate1 (t : String) (v : String) : String :=
  if t = "" then v
  else if t = "neg" then "\\left( - " ++ v ++ " \\right)"
  else if t = "pos" then "\\left( + " ++ v ++ " \\right)"
  else if t = "abs" then "\\left| " ++ v ++ " \\right|"
  else if t = "sqr" then v ++ "^2"
  else if t = "sqrt" then "\\sqrt\x7b " ++ v ++ " \x7d"
  else if t = "sin" then "\\sin\x7b\\left( " ++ v ++ " \\right)\x7d"
  else if t = "cos" then "\\cos\x7b\\left( " ++ v ++ " \\right)\x7d"
  else if t = "tan" then "\\tan\x7b\\left( " ++ v ++ " \\right)\x7d"
  else if t = "sinh" then "\\sinh\x7b\\left( " ++ v ++ " \\right)\x7d"
  else if t = "cosh" then "\\cosh\x7b\\left( " ++ v ++ " \\right)\x7d"
  else if t = "tanh" then "\\tanh\x7b\\left( " ++ v ++ " \\right)\x7d"
  else if t = "exp" then "\\mathrm\x7be\x7d^\x7b " ++ v ++ " \x7d"
  else if t = "ln" then "\\ln\x7b " ++ v ++ " \x7d"
  else if t = "log10" then "\\log_\x7b10\x7d\x7b " ++ v ++ " \x7d"
  else if t = "()" then "\\left( " ++ v ++ " \\right)"
  else if t = "[]" then "\\left[ " ++ v ++ " \\right]"
  else if t = "\x7b\x7d" then "\\left\\\x7b " ++ v ++ " \\right\\\x7d"
  else if t = "<>" then "\\left\\langle " ++ v ++ " \\right\\rangle"
  else ""

/-- The template dispatch of `Operation.__str`. -/
def strApply (t : String) (v : List String) : String :=
  if t ∈ supportedOperationsN then strTemplateN t v
  else if t ∈ supportedOperations2 then
    match v with
    | v0 :: v1 :: _ => strTemplate2 t v0 v1
    | _ => ""
  else if t ∈ supportedOperations1 then
    match v with
    | v0 :: _ => strTemplate1 t v0
    | _ => ""
  else ""

mutual
/-- `Operation.__str`, the one recursive renderer shared by `str_symbolic`
and `str_substituted`: renders the children in the given mode and combines
the child strings with the operator's fixed LaTeX template (n-ary tags
first, then binary reading the first two children, then unary reading the
first).  Where the Python code would raise (`IndexError` on a missing
child, `LaTeXExpressionError` on an unsupported tag) the rendering is
modelled as the empty string; no constructed operation reaches those
branches. -/
def nodeStr (σ : Store ℚ) (m : StrMode) : Node ℚ → String
  | .leafv v => varStr m v
  | .ref i => varStr m (σ i)
  | .op t args =>
    if t ∈ supportedOperations then strApply t (listStr σ m args) else ""
def listStr (σ : Store ℚ) (m : StrMode) : NodeList ℚ → List String
  | .nil => []
  | .cons a tl => nodeStr σ m a :: listStr σ m tl
end

/-! ### The `Operation` class -/

/-- The Python `Operation` class: operator tag, child list, format spec and
scientific exponent. -/
structure Operation (α : Type) where
  type : String
  args : NodeList α
  format : String
  exponent : ℤ

/-- The tree rooted at an `Operation` instance. -/
def Operation.node {α : Type} (o : Operation α) : Node α := .op o.type o.args

/-- `Operation.result` (also `__float__`). -/
def Operation.result {α : Type} [LinearOrderedField α] [FloorRing α]
    (P : MathPrims α) (σ : Store α) (o : Operation α) : Except PyErr α :=
  nodeFloat P σ o.node

/-- `Operation.is_symbolic`. -/
def Operation.is_symbolic {α : Type} (σ : Store α) (o : Operation α) : Bool :=
  nodeIsSymbolic σ o.node

/-- `Operation.str_symbolic`. -/
def Operation.str_symbolic (σ : Store ℚ) (o : Operation ℚ) : String :=
  nodeStr σ .symbolic o.node

/-- `Operation.str_substituted`. -/
def Operation.str_substituted (σ : Store ℚ) (o : Operation ℚ) : String :=
  nodeStr σ .substituted o.node

/-- `Operation.str_result`: the symbolic rendering when symbolic, else the
formatted numeric result (note the negative branch applies the node's own
format spec, unlike `Variable.str_result`).  A Python evaluation error
would propagate as an exception; it is modelled as an empty rendering. -/
def Operation.str_result (P : MathPrims ℚ) (σ : Store ℚ) (o : Operation ℚ)
    (format : String) (exponent : ℤ) : String :=
  if o.is_symbolic σ then o.str_symbolic σ
  else
    match o.result P σ with
    | .error _ => ""
    | .ok r =>
      let f := if format = "" then o.format else format
      let e := if exponent = 0 then o.exponent else exponent
      if e = 0 then
        if r < -1000 then "\\left( " ++ pyF0space r ++ " \\right)"
        else if r < 0 then "\\left(" ++ pyFormatNum f r ++ "\\right)"
        else if r < 1000 then pyG4space r
        else pyF0space r
      else
        let val := r * (10 : ℚ) ^ (-e)
        if r < 0 then
          "\\left( " ++ pyFormatNum f val ++ " \\cdot 10^\x7b" ++ intStr e ++ "\x7d \\right)"
        else "\x7b " ++ pyFormatNum f val ++ " \\cdot 10^\x7b" ++ intStr e ++ "\x7d \x7d"

/-! ### The `Expression` class -/

/-- The Python `Expression` class: a named, unit-bearing wrapper holding one
child tree in its `operation` attribute. -/
structure Expression (α : Type) where
  name : String
  operation : Node α
  unit : String
  format : String
  unitFormat : String
  exponent : ℤ

/-- `Expression.is_symbolic`: delegates to the wrapped tree. -/
def Expression.is_symbolic {α : Type} (σ : Store α) (e : Expression α) : Bool :=
  nodeIsSymbolic σ e.operation

/-- `Expression.result` (also `__float__`): the wrapped tree's value. -/
def Expression.float {α : Type} [LinearOrderedField α] [FloorRing α]
    (P : MathPrims α) (σ : Store α) (e : Expression α) : Except PyErr α :=
  nodeFloat P σ e.operation

/-- `Expression.to_variable` (through `Variable.from_expression`): build a
fresh, independent `Variable` copying the expression's name, unit, format,
unit format and exponent, and snapshotting its current numeric result (or
symbolic status) at conversion time.  An evaluation error propagates. -/
def Expression.to_variable {α : Type} [LinearOrderedField α] [FloorRing α]
    (P : MathPrims α) (σ : Store α) (e : Expression α) : Except PyErr (Variable α) :=
  if e.is_symbolic σ then
    .ok { name := e.name, value := none, unit := e.unit, format := e.format,
          unitFormat := e.unitFormat, exponent := e.exponent }
  else
    (e.float P σ).map fun q =>
      { name := e.name, value := some (Sum.inl q), unit := e.unit, format := e.format,
        unitFormat := e.unitFormat, exponent := e.exponent }

/-! ### The `Operation` constructor -/

/-- A Python value passed to the `Operation` constructor: an existing
`Variable` or `Operation` node, an `Expression`, a raw `int` or `float`
literal, or a value of any other type. -/
inductive PyArg where
  | node (n : Node ℚ)
  | expr (e : Expression ℚ)
  | int (z : ℤ)
  | float (q : ℚ)
  | other

/-- One step of `Operation.__check_args`: `Variable`/`Operation` arguments
are appended as given (the same object — a live reference), an `Expression`
is replaced by its `to_variable()` snapshot, an `int` literal by the fresh
anonymous `Variable("%d" % a, a, format="%d")`, a `float` literal by the
fresh anonymous `Variable("%.4g" % a, a, format="%.4g")`, and anything else
raises `TypeError`. -/
def checkArg (P : MathPrims ℚ) (σ : Store ℚ) : PyArg → Except PyErr (Node ℚ)
  | .node n => .ok n
  | .expr e => (e.to_variable P σ).map .leafv
  | .int z => .ok (.leafv (Variable.init (intStr z) (some (z : ℚ)) "" "%d" mathrmFmt 0))
  | .float q => .ok (.leafv (Variable.init (pyG4 q) (some q) "" "%.4g" mathrmFmt 0))
  | .other => .error .typeErr

/-- `Operation.__check_args` over the argument list, left to right. -/
def checkArgs (P : MathPrims ℚ) (σ : Store ℚ) : List PyArg → Except PyErr (List (Node ℚ))
  | [] => .ok []
  | a :: rest =>
    match checkArg P σ a with
    | .error e => .error e
    | .ok n => (checkArgs P σ rest).map (n :: ·)

/-- `Operation.__init__`: reject an unrecognised tag with
`LaTeXExpressionError`, then run `__check_args` on the arguments and store
them.  No arity validation is performed. -/
def Operation.init (P : MathPrims ℚ) (σ : Store ℚ) (t : String) (args : List PyArg) :
    Except PyErr (Operation ℚ) :=
  if t ∈ supportedOperations then
    (checkArgs P σ args).map fun ns =>
      { type := t, args := listToNL ns, format := "%.4g", exponent := 0 }
  else .error .latexExpr

/-- A default heap: every index holds a fresh `Variable("", 0)`. -/
def store0 : Store ℚ := fun _ =>
  { name := "", value := some (Sum.inl 0), unit := "", format := "%.4g",
    unitFormat := mathrmFmt, exponent := 0 }

mutual
/-- The heap indices a tree references: the `Variable` objects it aliases
(owned leaves alias nothing). -/
def nodeRefs {α : Type} : Node α → List ℕ
  | .leafv _ => []
  | .ref i => [i]
  | .op _ args => listRefs args
def listRefs {α : Type} : NodeList α → List ℕ
  | .nil => []
  | .cons a tl => nodeRefs a ++ listRefs tl
end

mutual
/-- Replace every occurrence of the heap reference `k` by an owned leaf
holding the variable object `v`: the tree that behaves, over the original
store, as the original tree does after slot `k` is updated to `v`. -/
def substRef {α : Type} (k : ℕ) (v : Variable α) : Node α → Node α
  | .leafv w => .leafv w
  | .ref i => if i = k then .leafv v else .ref i
  | .op t args => .op t (substRefList k v args)
def substRefList {α : Type} (k : ℕ) (v : Variable α) : NodeList α → NodeList α
  | .nil => .nil
  | .cons a tl => .cons (substRef k v a) (substRefList k v tl)
end

/-- The heap indices referenced by a constructor argument through a live
slot: an existing node argument aliases its references, while an
`Expression` argument is snapshotted at construction (so mutations inside
its subtree do not reach the constructed node) and literals are fresh. -/
def argRefs : PyArg → List ℕ
  | .node n => nodeRefs n
  | .expr _ => []
  | .int _ => []
  | .float _ => []
  | .other => []

/-- The heap indices referenced by a list of nodes. -/
def refsOfNodes {α : Type} (ns : List (Node α)) : List ℕ :=
  ns.foldr (fun n acc => nodeRefs n ++ acc) []

/-- The heap indices referenced by a list of constructor arguments through
live slots. -/
def refsOfArgs (l : List PyArg) : List ℕ :=
  l.foldr (fun a acc => argRefs a ++ acc) []

/-- A first parent tree sharing the heap variable 0: `x + x`. -/
def parent1 : Node ℚ := .op "+" (.cons (.ref 0) (.cons (.ref 0) .nil))

/-- A second parent tree sharing the heap variable 0: `x * Variable("",0)`. -/
def parent2 : Node ℚ := .op "*" (.cons (.ref 0) (.cons (.leafv (store0 1)) .nil))

/-- A concrete `Expression` wrapping the heap variable 0. -/
def expr6 : Expression ℚ :=
  { name := "E", operation := .op "" (.cons (.ref 0) .nil), unit := "u",
    format := "%.3f", unitFormat := mathrmFmt, exponent := 0 }

/-- The promoted literal `3` of the C6 scenario. -/
def prom6 : Variable ℚ := Variable.init "3" (some 3) "" "%d" mathrmFmt 0

/-- The snapshot `Variable` that `expr6.to_variable()` produces over
`store0`. -/
def sv6 : Variable ℚ :=
  { name := "E", value := some (Sum.inl 0), unit := "u", format := "%.3f",
    unitFormat := mathrmFmt, exponent := 0 }

/-- The operation `Operation('+', 3, expr6)` constructs over `store0`. -/
def op6 : Operation ℚ :=
  { type := "+", args := .cons (.leafv prom6) (.cons (.leafv sv6) .nil),
    format := "%.4g", exponent := 0 }

/-- The operation `Operation('+', x, expr6)` whose first child aliases the
very leaf the expression wraps. -/
def opX : Operation ℚ :=
  { type := "+", args := .cons (.ref 0) (.cons (.leafv sv6) .nil),
    format := "%.4g", exponent := 0 }

/-! ### The spec-side reading of a tree (refinement target for C1) -/

/-- Modelled from the spec: the standard arithmetic reading of one operator
applied to its children's values — sum, product, extremum, `a - b`,
`a / b`, `⌊a / b⌋`, `a ^ b`, `b ^ (1/a)`, `ln b / ln a`, and the standard
unary functions (identity and the four bracket kinds pass through, square
is `a ^ 2`).  Inputs outside an operator's domain (where the code raises)
receive junk values; the refinement theorem only relates this to
evaluations that succeed. -/
def specApply {α : Type} [LinearOrderedField α] [FloorRing α] (P : MathPrims α)
    (t : String) (l : List α) : α :=
  if t = "+" then l.sum
  else if t = "*" then l.prod
  else if t = "max" then (match l with | [] => 0 | a :: r => r.foldr max a)
  else if t = "min" then (match l with | [] => 0 | a :: r => r.foldr min a)
  else
    match l with
    | [a] =>
      if t = "" ∨ t = "pos" ∨ t = "()" ∨ t = "[]" ∨ t = "\x7b\x7d" ∨ t = "<>" then a
      else if t = "neg" then -a
      else if t = "abs" then |a|
      else if t = "sqr" then a ^ (2 : ℕ)
      else if t = "sqrt" then P.sqrt a
      else if t = "sin" then P.sin a
      else if t = "cos" then P.cos a
      else if t = "tan" then P.tan a
      else if t = "sinh" then P.sinh a
      else if t = "cosh" then P.cosh a
      else if t = "tanh" then P.tanh a
      else if t = "exp" then P.exp a
      else if t = "ln" then P.log a
      else if t = "log10" then P.log a / P.log 10
      else 0
    | [a, b] =>
      if t = "-" then a - b
      else if t = "/" then a / b
      else if t = "//" then ((⌊a / b⌋ : ℤ) : α)
      else if t = "pow" then P.pow a b
      else if t = "root" then P.pow b (1 / a)
      else if t = "log" then P.log b / P.log a
      else 0
    | _ => 0

mutual
/-- Modelled from the spec: a tree read as an ordinary arithmetic
expression, each operator denoting its standard function via `specApply`
(leaves denote their numeric value, junk 0 when absent or a string). -/
def specEval {α : Type} [LinearOrderedField α] [FloorRing α] (P : MathPrims α)
    (σ : Store α) : Node α → α
  | .leafv v => (match v.value with | some (Sum.inl q) => q | _ => 0)
  | .ref i => (match (σ i).value with | some (Sum.inl q) => q | _ => 0)
  | .op t args => specApply P t (specEvalList P σ args)
def specEvalList {α : Type} [LinearOrderedField α] [FloorRing α] (P : MathPrims α)
    (σ : Store α) : NodeList α → List α
  | .nil => []
  | .cons a tl => specEval P σ a :: specEvalList P σ tl
end

/-- A heap of non-symbolic placeholder variables over `ℝ`. -/
noncomputable def storeR : Store ℝ := fun _ =>
  { name := "w", value := some (Sum.inl 0), unit := "", format := "%.4g",
    unitFormat := mathrmFmt, exponent := 0 }

/-- The concrete real tree `5 - 2` used as an instance of claim C1. -/
noncomputable def treeSub : Node ℝ :=
  .op "-" (.cons
    (.leafv { name := "x", value := some (Sum.inl 5), unit := "", format := "%.4g",
              unitFormat := mathrmFmt, exponent := 0 })
    (.cons
      (.leafv { name := "y", value := some (Sum.inl 2), unit := "", format := "%.4g",
                unitFormat := mathrmFmt, exponent := 0 }) .nil))

/-- The leaf `Variable('a', 5)` of the literal-promotion scenario. -/
def vA7 : Variable ℚ := Variable.init "a" (some 5) "" "%.4g" mathrmFmt 0

/-- The anonymous leaf the constructor promotes the literal `2` into. -/
def promoted7 : Variable ℚ := Variable.init "2" (some 2) "" "%d" mathrmFmt 0

/-- The operation node built by `Variable('a', 5) + 2`. -/
def op7 : Operation ℚ :=
  { type := "+", args := .cons (.leafv vA7) (.cons (.leafv promoted7) .nil),
    format := "%.4g", exponent := 0 }

/-! ### Helper lemmas -/

/-- `Except.map` preserves success. -/
theorem exceptMap_isOk {ε β γ : Type} (f : β → γ) (x : Except ε β) :
    (x.map f).isOk = x.isOk := by
  cases x <;> rfl

/-- `__check_args` succeeds exactly when every argument passes `checkArg`. -/
theorem checkArgs_isOk (P : MathPrims ℚ) (σ : Store ℚ) (l : List PyArg) :
    (checkArgs P σ l).isOk = l.all fun a => (checkArg P σ a).isOk := by
  induction l with
  | nil => rfl
  | cons a rest ih =>
    simp only [checkArgs, List.all_cons]
    cases h : checkArg P σ a with
    | error e => simp only [h]; rfl
    | ok n => simp only [h, exceptMap_isOk, ih]; rfl



/-- A left fold of addition accumulates onto the sum. -/
theorem foldl_add_eq {α : Type} [AddCommMonoid α] (l : List α) (a : α) :
    l.foldl (· + ·) a = a + l.sum := by
  induction l generalizing a with
  | nil => simp
  | cons b t ih => simp [List.foldl_cons, ih, add_assoc]

/-- A left fold of multiplication accumulates onto the product. -/
theorem foldl_mul_eq {α : Type} [CommMonoid α] (l : List α) (a : α) :
    l.foldl (· * ·) a = a * l.prod := by
  induction l generalizing a with
  | nil => simp
  | cons b t ih => simp [List.foldl_cons, ih, mul_assoc]

/-- The n-ary reducers compute the spec reading of their tag. -/
theorem applyOpN_ok {α : Type} [LinearOrderedField α] [FloorRing α] (P : MathPrims α)
    (t : String) (vs : List α) (hm : t ∈ supportedOperationsN) (hn : 2 ≤ vs.length)
    (r : α) (h : applyOpN t vs = .ok r) : r = specApply P t vs := by
  simp only [supportedOperationsN, List.mem_cons, List.not_mem_nil, or_false] at hm
  obtain ⟨v0, vr, rfl⟩ : ∃ v0 vr, vs = v0 :: vr := by
    cases vs with
    | nil => simp at hn
    | cons a tl => exact ⟨a, tl, rfl⟩
  rcases hm with rfl | rfl | rfl | rfl
  · simp +decide [applyOpN] at h
    have hr : r = v0 + vr.sum := by rw [← h, foldl_add_eq]
    simp +decide [specApply, hr, List.sum_cons]
  · simp +decide [applyOpN] at h
    have hr : r = v0 * vr.prod := by rw [← h, foldl_mul_eq]
    simp +decide [specApply, hr, List.prod_cons]
  · simp +decide [applyOpN] at h
    simp +decide [specApply]
    rw [← h, List.foldl_eq_foldr]
  · simp +decide [applyOpN] at h
    simp +decide [specApply]
    rw [← h, List.foldl_eq_foldr]

/-- The binary reducers compute the spec reading of their tag when they
succeed. -/
theorem applyOp2_ok {α : Type} [LinearOrderedField α] [FloorRing α] (P : MathPrims α)
    (t : String) (hm : t ∈ supportedOperations2) (v0 v1 r : α)
    (h : applyOp2 P t v0 v1 = .ok r) : r = specApply P t [v0, v1] := by
  simp only [supportedOperations2, List.mem_cons, List.not_mem_nil, or_false] at hm
  rcases hm with rfl | rfl | rfl | rfl | rfl | rfl <;>
    (simp +decide [applyOp2] at h
     try split_ifs at h
     simp_all +decide [specApply])

/-- The unary reducers compute the spec reading of their tag when they
succeed (for primitives whose `pow` at exponent 2 is squaring). -/
theorem applyOp1_ok {α : Type} [LinearOrderedField α] [FloorRing α] (P : MathPrims α)
    (hP : ∀ x : α, P.pow x 2 = x ^ (2 : ℕ))
    (t : String) (hm : t ∈ supportedOperations1) (v r : α)
    (h : applyOp1 P t v = .ok r) : r = specApply P t [v] := by
  simp only [supportedOperations1, List.mem_cons, List.not_mem_nil, or_false] at hm
  rcases hm with rfl|rfl|rfl|rfl|rfl|rfl|rfl|rfl|rfl|rfl|rfl|rfl|rfl|rfl|rfl|rfl|rfl|rfl|rfl <;>
    (simp +decide [applyOp1] at h
     try split_ifs at h
     simp_all +decide [specApply, hP])

/-- The unary tags are not n-ary tags. -/
theorem mem_ops1_not_N {t : String} (h : t ∈ supportedOperations1) :
    t ∉ supportedOperationsN := by
  have hall : supportedOperations1.all (fun s => decide (s ∉ supportedOperationsN)) = true := by
    decide
  simpa using List.all_eq_true.mp hall t h

/-- The unary tags are not binary tags. -/
theorem mem_ops1_not_2 {t : String} (h : t ∈ supportedOperations1) :
    t ∉ supportedOperations2 := by
  have hall : supportedOperations1.all (fun s => decide (s ∉ supportedOperations2)) = true := by
    decide
  simpa using List.all_eq_true.mp hall t h

/-- The binary tags are not n-ary tags. -/
theorem mem_ops2_not_N {t : String} (h : t ∈ supportedOperations2) :
    t ∉ supportedOperationsN := by
  have hall : supportedOperations2.all (fun s => decide (s ∉ supportedOperationsN)) = true := by
    decide
  simpa using List.all_eq_true.mp hall t h

/-- The reducer dispatch computes the spec reading whenever it succeeds on
a child list of the declared arity. -/
theorem applyOp_ok {α : Type} [LinearOrderedField α] [FloorRing α] (P : MathPrims α)
    (hP : ∀ x : α, P.pow x 2 = x ^ (2 : ℕ)) (t : String) (vs : List α)
    (ha : arityOk t vs.length = true) (r : α)
    (h : applyOp P t vs = .ok r) : r = specApply P t vs := by
  unfold arityOk at ha
  split_ifs at ha with h1 h2 hN
  · have hlen : vs.length = 1 := by simpa using ha
    obtain ⟨v, rfl⟩ := List.length_eq_one.mp hlen
    simp only [applyOp] at h
    rw [if_neg (mem_ops1_not_N h1), if_neg (mem_ops1_not_2 h1), if_pos h1] at h
    exact applyOp1_ok P hP t h1 v r h
  · have hlen : vs.length = 2 := by simpa using ha
    obtain ⟨v0, v1, rfl⟩ := List.length_eq_two.mp hlen
    simp only [applyOp] at h
    rw [if_neg (mem_ops2_not_N h2), if_pos h2] at h
    exact applyOp2_ok P t h2 v0 v1 r h
  · have hlen : 2 ≤ vs.length := by simpa using ha
    simp only [applyOp] at h
    rw [if_pos hN] at h
    exact applyOpN_ok P t vs hN hlen r h

/-- A tag with a declared arity is a recognised tag. -/
theorem arityOk_mem (t : String) (n : ℕ) (h : arityOk t n = true) :
    t ∈ supportedOperations := by
  unfold arityOk at h
  split_ifs at h with h1 h2 hN
  · simp [supportedOperations, List.mem_append, h1]
  · simp [supportedOperations, List.mem_append, h2]
  · simp [supportedOperations, List.mem_append, hN]

mutual
/-- Refinement on trees: a successful `result()` of a well-formed tree is
the spec reading of the tree. -/
theorem nodeFloat_refines {α : Type} [LinearOrderedField α] [FloorRing α]
    (P : MathPrims α) (hP : ∀ x : α, P.pow x 2 = x ^ (2 : ℕ)) (σ : Store α) :
    ∀ tr : Node α, nodeWF tr = true → ∀ r, nodeFloat P σ tr = .ok r →
      r = specEval P σ tr
  | .leafv v => fun _ r h => by
    cases hv : v.value with
    | none => simp [nodeFloat, Variable.float, hv] at h
    | some val =>
      cases val with
      | inl q =>
        simp [nodeFloat, Variable.float, hv] at h
        simp [specEval, hv, h]
      | inr s => simp [nodeFloat, Variable.float, hv] at h
  | .ref i => fun _ r h => by
    cases hv : (σ i).value with
    | none => simp [nodeFloat, Variable.float, hv] at h
    | some val =>
      cases val with
      | inl q =>
        simp [nodeFloat, Variable.float, hv] at h
        simp [specEval, hv, h]
      | inr s => simp [nodeFloat, Variable.float, hv] at h
  | .op t args => fun hwf r h => by
    have hw : arityOk t (nlLength args) = true ∧ listWF args = true := by
      simpa [nodeWF, Bool.and_eq_true] using hwf
    have hmem : t ∈ supportedOperations := arityOk_mem t (nlLength args) hw.1
    simp only [nodeFloat, hmem, if_true] at h
    cases hl : listFloat P σ args with
    | error e => simp [hl] at h
    | ok vs =>
      simp only [hl] at h
      obtain ⟨hs, hlen⟩ := listFloat_refines P hP σ args hw.2 vs hl
      subst hs
      simp only [specEval]
      exact applyOp_ok P hP t _ (by rw [hlen]; exact hw.1) r h
/-- Refinement on child lists: a successful left-to-right evaluation yields
exactly the spec readings of the children, one per child. -/
theorem listFloat_refines {α : Type} [LinearOrderedField α] [FloorRing α]
    (P : MathPrims α) (hP : ∀ x : α, P.pow x 2 = x ^ (2 : ℕ)) (σ : Store α) :
    ∀ l : NodeList α, listWF l = true → ∀ vs, listFloat P σ l = .ok vs →
      vs = specEvalList P σ l ∧ vs.length = nlLength l
  | .nil => fun _ vs h => by
    simp only [listFloat, Except.ok.injEq] at h
    subst h
    simp [specEvalList, nlLength]
  | .cons a tl => fun hwf vs h => by
    have hw : nodeWF a = true ∧ listWF tl = true := by
      simpa [listWF, Bool.and_eq_true] using hwf
    cases hna : nodeFloat P σ a with
    | error e => simp [listFloat, hna] at h
    | ok v =>
      cases hltl : listFloat P σ tl with
      | error e => simp [listFloat, hna, hltl] at h
      | ok ws =>
        simp only [listFloat, hna, hltl, Except.ok.injEq] at h
        subst h
        have h1 := nodeFloat_refines P hP σ a hw.1 v hna
        obtain ⟨h2, h3⟩ := listFloat_refines P hP σ tl hw.2 ws hltl
        constructor
        · simp [specEvalList, h1, h2]
        · simp [nlLength, h3]
end

/-- `math.pow` at exponent 2 is squaring. -/
theorem realPrims_pow_two (x : ℝ) : realPrims.pow x 2 = x ^ (2 : ℕ) := by
  show x ^ (2 : ℝ) = x ^ (2 : ℕ)
  rw [show (2 : ℝ) = ((2 : ℕ) : ℝ) by norm_num, Real.rpow_natCast]

/-- C1: whenever `result()` (equivalently `float()`) of a well-formed,
non-symbolic tree of `Variable` and `Operation` nodes returns a number,
that number is the standard arithmetic evaluation of the tree read as an
ordinary expression over the real `math` functions: add is the sum of the
children, multiply the product, max/min the extremum, subtract `a - b`,
divide `a / b`, floor-divide `⌊a / b⌋`, power `a ^ b`, root `b ^ (1/a)`,
log-base `ln b / ln a`, and each unary operator its standard real
function. -/
theorem c1_result_matches_standard_eval (σ : Store ℝ) (tr : Node ℝ)
    (hwf : nodeWF tr = true) (hs : nodeIsSymbolic σ tr = false) (r : ℝ)
    (h : nodeFloat realPrims σ tr = .ok r) : r = specEval realPrims σ tr :=
  nodeFloat_refines realPrims realPrims_pow_two σ tr hwf r h

/-- Witness for C1 at the concrete real tree `5 - 2`. -/
theorem c1_witness :
    nodeWF treeSub = true ∧ nodeIsSymbolic storeR treeSub = false ∧
    nodeFloat realPrims storeR treeSub = .ok ((5 : ℝ) - 2) ∧
    (5 : ℝ) - 2 = specEval realPrims storeR treeSub :=
  ⟨by decide, by decide, rfl,
   c1_result_matches_standard_eval storeR treeSub (by decide) (by decide) ((5 : ℝ) - 2) rfl⟩

mutual
/-- `is_symbolic` reads the store only at the referenced indices. -/
theorem nodeIsSymbolic_frame {α : Type} (σ σp : Store α) :
    ∀ tr : Node α, (∀ i ∈ nodeRefs tr, σp i = σ i) →
      nodeIsSymbolic σp tr = nodeIsSymbolic σ tr
  | .leafv v => fun _ => rfl
  | .ref i => fun h => by
    simp only [nodeIsSymbolic, h i (by simp [nodeRefs])]
  | .op t args => fun h => by
    have hl := listIsSymbolic_frame σ σp args (fun i hi => h i (by simpa [nodeRefs] using hi))
    simp only [nodeIsSymbolic, hl]
/-- `is_symbolic` over a child list reads only referenced indices. -/
theorem listIsSymbolic_frame {α : Type} (σ σp : Store α) :
    ∀ l : NodeList α, (∀ i ∈ listRefs l, σp i = σ i) →
      listIsSymbolic σp l = listIsSymbolic σ l
  | .nil => fun _ => rfl
  | .cons a tl => fun h => by
    have h1 := nodeIsSymbolic_frame σ σp a
      (fun i hi => h i (by simp [listRefs, List.mem_append, hi]))
    have h2 := listIsSymbolic_frame σ σp tl
      (fun i hi => h i (by simp [listRefs, List.mem_append, hi]))
    simp only [listIsSymbolic, h1, h2]
end

mutual
/-- Evaluation reads the store only at the referenced indices. -/
theorem nodeFloat_frame {α : Type} [LinearOrderedField α] [FloorRing α]
    (P : MathPrims α) (σ σp : Store α) :
    ∀ tr : Node α, (∀ i ∈ nodeRefs tr, σp i = σ i) →
      nodeFloat P σp tr = nodeFloat P σ tr
  | .leafv v => fun _ => rfl
  | .ref i => fun h => by
    simp only [nodeFloat, h i (by simp [nodeRefs])]
  | .op t args => fun h => by
    have hl := listFloat_frame P σ σp args (fun i hi => h i (by simpa [nodeRefs] using hi))
    simp only [nodeFloat, hl]
/-- Child-list evaluation reads only referenced indices. -/
theorem listFloat_frame {α : Type} [LinearOrderedField α] [FloorRing α]
    (P : MathPrims α) (σ σp : Store α) :
    ∀ l : NodeList α, (∀ i ∈ listRefs l, σp i = σ i) →
      listFloat P σp l = listFloat P σ l
  | .nil => fun _ => rfl
  | .cons a tl => fun h => by
    have h1 := nodeFloat_frame P σ σp a
      (fun i hi => h i (by simp [listRefs, List.mem_append, hi]))
    have h2 := listFloat_frame P σ σp tl
      (fun i hi => h i (by simp [listRefs, List.mem_append, hi]))
    simp only [listFloat, h1, h2]
end

mutual
/-- Rendering reads the store only at the referenced indices. -/
theorem nodeStr_frame (σ σp : Store ℚ) (m : StrMode) :
    ∀ tr : Node ℚ, (∀ i ∈ nodeRefs tr, σp i = σ i) →
      nodeStr σp m tr = nodeStr σ m tr
  | .leafv v => fun _ => rfl
  | .ref i => fun h => by
    simp only [nodeStr, h i (by simp [nodeRefs])]
  | .op t args => fun h => by
    have hl := listStr_frame σ σp m args (fun i hi => h i (by simpa [nodeRefs] using hi))
    simp only [nodeStr, hl]
/-- Child-list rendering reads only referenced indices. -/
theorem listStr_frame (σ σp : Store ℚ) (m : StrMode) :
    ∀ l : NodeList ℚ, (∀ i ∈ listRefs l, σp i = σ i) →
      listStr σp m l = listStr σ m l
  | .nil => fun _ => rfl
  | .cons a tl => fun h => by
    have h1 := nodeStr_frame σ σp m a
      (fun i hi => h i (by simp [listRefs, List.mem_append, hi]))
    have h2 := listStr_frame σ σp m tl
      (fun i hi => h i (by simp [listRefs, List.mem_append, hi]))
    simp only [listStr, h1, h2]
end

mutual
/-- Updating heap slot `k` and evaluating equals evaluating the tree with
every `ref k` slot replaced by the new variable object: the slot is read
live at evaluation time. -/
theorem nodeFloat_subst {α : Type} [LinearOrderedField α] [FloorRing α]
    (P : MathPrims α) (σ : Store α) (k : ℕ) (v : Variable α) :
    ∀ tr : Node α, nodeFloat P (σ.set k v) tr = nodeFloat P σ (substRef k v tr)
  | .leafv w => rfl
  | .ref i => by
    by_cases hik : i = k
    · subst hik; simp [nodeFloat, substRef, Store.set]
    · simp [nodeFloat, substRef, Store.set, hik]
  | .op t args => by
    have hl := listFloat_subst P σ k v args
    simp only [nodeFloat, substRef, hl]
/-- Substitution property of child-list evaluation. -/
theorem listFloat_subst {α : Type} [LinearOrderedField α] [FloorRing α]
    (P : MathPrims α) (σ : Store α) (k : ℕ) (v : Variable α) :
    ∀ l : NodeList α, listFloat P (σ.set k v) l = listFloat P σ (substRefList k v l)
  | .nil => rfl
  | .cons a tl => by
    simp only [listFloat, substRefList, nodeFloat_subst P σ k v a, listFloat_subst P σ k v tl]
end

mutual
/-- Updating heap slot `k` and rendering equals rendering the tree with
every `ref k` slot replaced by the new variable object. -/
theorem nodeStr_subst (σ : Store ℚ) (k : ℕ) (v : Variable ℚ) (m : StrMode) :
    ∀ tr : Node ℚ, nodeStr (σ.set k v) m tr = nodeStr σ m (substRef k v tr)
  | .leafv w => rfl
  | .ref i => by
    by_cases hik : i = k
    · subst hik; simp [nodeStr, substRef, Store.set]
    · simp [nodeStr, substRef, Store.set, hik]
  | .op t args => by
    have hl := listStr_subst σ k v m args
    simp only [nodeStr, substRef, hl]
/-- Substitution property of child-list rendering. -/
theorem listStr_subst (σ : Store ℚ) (k : ℕ) (v : Variable ℚ) (m : StrMode) :
    ∀ l : NodeList ℚ, listStr (σ.set k v) m l = listStr σ m (substRefList k v l)
  | .nil => rfl
  | .cons a tl => by
    simp only [listStr, substRefList, nodeStr_subst σ k v m a, listStr_subst σ k v m tl]
end

/-- Referenced indices distribute over list append. -/
theorem refsOfNodes_append {α : Type} (l1 l2 : List (Node α)) :
    refsOfNodes (l1 ++ l2) = refsOfNodes l1 ++ refsOfNodes l2 := by
  induction l1 with
  | nil => rfl
  | cons n t ih => simp [refsOfNodes, List.foldr_cons, List.append_assoc] at ih ⊢; simp [ih]

/-- Argument references distribute over list append. -/
theorem refsOfArgs_append (l1 l2 : List PyArg) :
    refsOfArgs (l1 ++ l2) = refsOfArgs l1 ++ refsOfArgs l2 := by
  induction l1 with
  | nil => rfl
  | cons a t ih => simp [refsOfArgs, List.foldr_cons, List.append_assoc] at ih ⊢; simp [ih]

/-- References of a converted child list. -/
theorem listRefs_listToNL {α : Type} (ns : List (Node α)) :
    listRefs (listToNL ns) = refsOfNodes ns := by
  induction ns with
  | nil => rfl
  | cons n t ih => simp [listToNL, listRefs, refsOfNodes, List.foldr_cons] at ih ⊢; simp [ih]

/-- A successful `__check_args` on a cons splits into its head and tail. -/
theorem checkArgs_cons_ok (P : MathPrims ℚ) (σ : Store ℚ) (a : PyArg) (l : List PyArg)
    (ns : List (Node ℚ)) (h : checkArgs P σ (a :: l) = .ok ns) :
    ∃ n ns2, checkArg P σ a = .ok n ∧ checkArgs P σ l = .ok ns2 ∧ ns = n :: ns2 := by
  simp only [checkArgs] at h
  cases ha : checkArg P σ a with
  | error e => simp [ha] at h
  | ok n =>
    simp only [ha] at h
    cases hl : checkArgs P σ l with
    | error e => simp [hl, Except.map] at h
    | ok ns2 =>
      simp only [hl, Except.map, Except.ok.injEq] at h
      exact ⟨n, ns2, rfl, rfl, h.symm⟩

/-- A successful `__check_args` on an append splits into its parts. -/
theorem checkArgs_append_ok (P : MathPrims ℚ) (σ : Store ℚ) (l1 : List PyArg) :
    ∀ l2 ns, checkArgs P σ (l1 ++ l2) = .ok ns →
      ∃ ns1 ns2, checkArgs P σ l1 = .ok ns1 ∧ checkArgs P σ l2 = .ok ns2 ∧ ns = ns1 ++ ns2 := by
  induction l1 with
  | nil => exact fun l2 ns h => ⟨[], ns, rfl, h, rfl⟩
  | cons a t ih =>
    intro l2 ns h
    rw [List.cons_append] at h
    obtain ⟨n, nsr, ha, hrest, rfl⟩ := checkArgs_cons_ok P σ a (t ++ l2) ns h
    obtain ⟨m1, m2, hm1, hm2, rfl⟩ := ih l2 nsr hrest
    refine ⟨n :: m1, m2, ?_, hm2, rfl⟩
    simp [checkArgs, ha, hm1, Except.map]

/-- A checked argument references at most the live references of the
original argument (an `Expression` snapshot and a promoted literal
reference nothing). -/
theorem checkArg_refs (P : MathPrims ℚ) (σ : Store ℚ) (a : PyArg) (n : Node ℚ)
    (h : checkArg P σ a = .ok n) : nodeRefs n ⊆ argRefs a := by
  cases a with
  | node m =>
    simp only [checkArg, Except.ok.injEq] at h
    subst h
    simp [argRefs]
  | expr e =>
    simp only [checkArg] at h
    cases he : e.to_variable P σ with
    | error ee => rw [he] at h; simp [Except.map] at h
    | ok sv =>
      rw [he] at h
      simp only [Except.map, Except.ok.injEq] at h
      subst h
      simp [nodeRefs, argRefs]
  | int z =>
    simp only [checkArg, Except.ok.injEq] at h
    subst h
    simp [nodeRefs, argRefs]
  | float q =>
    simp only [checkArg, Except.ok.injEq] at h
    subst h
    simp [nodeRefs, argRefs]
  | other => simp [checkArg] at h

/-- The checked argument list references at most the live references of
the original arguments. -/
theorem checkArgs_refs (P : MathPrims ℚ) (σ : Store ℚ) (l : List PyArg) :
    ∀ ns, checkArgs P σ l = .ok ns → refsOfNodes ns ⊆ refsOfArgs l := by
  induction l with
  | nil =>
    intro ns h
    simp only [checkArgs, Except.ok.injEq] at h
    subst h
    simp [refsOfNodes]
  | cons a t ih =>
    intro ns h
    obtain ⟨n, ns2, ha, hrest, rfl⟩ := checkArgs_cons_ok P σ a t ns h
    have h1 : nodeRefs n ⊆ argRefs a := checkArg_refs P σ a n ha
    have h2 : refsOfNodes ns2 ⊆ refsOfArgs t := ih ns2 hrest
    intro i hi
    simp only [refsOfNodes, List.foldr_cons, List.mem_append] at hi
    simp only [refsOfArgs, List.foldr_cons, List.mem_append]
    rcases hi with hi | hi
    · exact Or.inl (h1 hi)
    · exact Or.inr (h2 hi)

/-- `Expression.to_variable` copies name, unit, format, unit format and
exponent, and snapshots the current numeric result or symbolic status. -/
theorem to_variable_fields (P : MathPrims ℚ) (σ : Store ℚ) (e : Expression ℚ)
    (sv : Variable ℚ) (h : e.to_variable P σ = .ok sv) :
    sv.name = e.name ∧ sv.unit = e.unit ∧ sv.format = e.format ∧
    sv.unitFormat = e.unitFormat ∧ sv.exponent = e.exponent ∧
    (e.is_symbolic σ = true → sv.value = none) ∧
    (∀ r, e.is_symbolic σ = false → nodeFloat P σ e.operation = .ok r →
      sv.value = some (Sum.inl r)) := by
  cases hsym : e.is_symbolic σ with
  | true =>
    simp only [Expression.to_variable, hsym, if_true, Except.ok.injEq] at h
    subst h
    refine ⟨rfl, rfl, rfl, rfl, rfl, fun _ => rfl, fun r hc => ?_⟩
    simp at hc
  | false =>
    simp only [Expression.to_variable, hsym, Bool.false_eq_true, if_false] at h
    cases hf : e.float P σ with
    | error ee => rw [hf] at h; simp [Except.map] at h
    | ok q =>
      rw [hf] at h
      simp only [Except.map, Except.ok.injEq] at h
      subst h
      refine ⟨rfl, rfl, rfl, rfl, rfl, fun hc => by simp at hc, fun r _ hr => ?_⟩
      have : (Except.ok q : Except PyErr ℚ) = .ok r := by
        rw [← hf, ← hr]; rfl
      simp only [Except.ok.injEq] at this
      simp [this]

/-- C5: `Operation.__check_args` stores `Variable` children by reference,
so a leaf shared by two parent trees is live in both: after assigning a
new numeric value to it, each parent's numeric result and substituted
rendering are those of its tree with the updated variable object at every
occurrence of the shared leaf — both parents observe the new value on
their next evaluation or render. -/
theorem c5_shared_leaf_live_reference (P : MathPrims ℚ) (σ : Store ℚ) (k : ℕ)
    (q : ℚ) (T1 T2 : Node ℚ) (h1 : k ∈ nodeRefs T1) (h2 : k ∈ nodeRefs T2) :
    nodeFloat P (σ.setValue k (.num q)) T1
      = nodeFloat P σ (substRef k ((σ k).set_value (.num q)) T1) ∧
    nodeFloat P (σ.setValue k (.num q)) T2
      = nodeFloat P σ (substRef k ((σ k).set_value (.num q)) T2) ∧
    nodeStr (σ.setValue k (.num q)) .substituted T1
      = nodeStr σ .substituted (substRef k ((σ k).set_value (.num q)) T1) ∧
    nodeStr (σ.setValue k (.num q)) .substituted T2
      = nodeStr σ .substituted (substRef k ((σ k).set_value (.num q)) T2) :=
  ⟨nodeFloat_subst P σ k ((σ k).set_value (.num q)) T1,
   nodeFloat_subst P σ k ((σ k).set_value (.num q)) T2,
   nodeStr_subst σ k ((σ k).set_value (.num q)) .substituted T1,
   nodeStr_subst σ k ((σ k).set_value (.num q)) .substituted T2⟩


/-- Witness for C5: heap variable 0 shared by `x + x` and `x * c`,
reassigned to 7. -/
theorem c5_witness :
    nodeFloat ratPrims (store0.setValue 0 (.num 7)) parent1
      = nodeFloat ratPrims store0 (substRef 0 ((store0 0).set_value (.num 7)) parent1) ∧
    nodeFloat ratPrims (store0.setValue 0 (.num 7)) parent2
      = nodeFloat ratPrims store0 (substRef 0 ((store0 0).set_value (.num 7)) parent2) ∧
    nodeStr (store0.setValue 0 (.num 7)) .substituted parent1
      = nodeStr store0 .substituted (substRef 0 ((store0 0).set_value (.num 7)) parent1) ∧
    nodeStr (store0.setValue 0 (.num 7)) .substituted parent2
      = nodeStr store0 .substituted (substRef 0 ((store0 0).set_value (.num 7)) parent2) :=
  c5_shared_leaf_live_reference ratPrims store0 0 7 parent1 parent2 (by decide) (by decide)

/-- C6 counterexample: in `Operation('+', x, e)` where the expression `e`
wraps the very leaf `x`, mutating `x` — a leaf inside the expression's
subtree — does change the operation's numeric result (through the other,
aliasing child slot), so the claim as stated fails. -/
theorem c6_counterexample :
    Operation.init ratPrims store0 "+" [.node (.ref 0), .expr expr6] = .ok opX ∧
    nodeFloat ratPrims store0 opX.node = .ok 0 ∧
    nodeFloat ratPrims (store0.setValue 0 (.num 9)) opX.node = .ok 9 ∧
    (9 : ℚ) ≠ 0 :=
  ⟨by with_unfolding_all rfl, by with_unfolding_all rfl, by with_unfolding_all rfl,
   by with_unfolding_all decide⟩

/-- C6 (amended): an `Expression` passed to the `Operation` constructor is
replaced, at construction time, by an independent snapshot `Variable`
copying its name, current numeric result or symbolic status, unit, format,
unit format and exponent; afterwards, mutating any heap variable that the
other (non-snapshot) arguments do not themselves reference — in particular
a leaf occurring only inside the expression's subtree — leaves the new
operation's numeric result and all three renderings unchanged. -/
theorem c6_expression_snapshot (P : MathPrims ℚ) (σ : Store ℚ) (t : String)
    (pre post : List PyArg) (e : Expression ℚ) (o : Operation ℚ) (k : ℕ) (x : PyAssign)
    (hctor : Operation.init P σ t (pre ++ .expr e :: post) = .ok o)
    (hk : k ∉ refsOfArgs (pre ++ post)) :
    (∃ sv, e.to_variable P σ = .ok sv ∧ sv.name = e.name ∧ sv.unit = e.unit ∧
       sv.format = e.format ∧ sv.unitFormat = e.unitFormat ∧ sv.exponent = e.exponent ∧
       (e.is_symbolic σ = true → sv.value = none) ∧
       (∀ r, e.is_symbolic σ = false → nodeFloat P σ e.operation = .ok r →
         sv.value = some (Sum.inl r))) ∧
    nodeFloat P (σ.setValue k x) o.node = nodeFloat P σ o.node ∧
    nodeStr (σ.setValue k x) .symbolic o.node = nodeStr σ .symbolic o.node ∧
    nodeStr (σ.setValue k x) .substituted o.node = nodeStr σ .substituted o.node ∧
    Operation.str_result P (σ.setValue k x) o "" 0 = Operation.str_result P σ o "" 0 := by
  by_cases hmem : t ∈ supportedOperations
  case neg => simp [Operation.init, hmem] at hctor
  case pos =>
  simp only [Operation.init, hmem, if_true] at hctor
  cases hca : checkArgs P σ (pre ++ .expr e :: post) with
  | error ee => rw [hca] at hctor; simp [Except.map] at hctor
  | ok ns =>
    rw [hca] at hctor
    simp only [Except.map, Except.ok.injEq] at hctor
    subst hctor
    obtain ⟨ns1, nsr, hpre, hrest, rfl⟩ := checkArgs_append_ok P σ pre (.expr e :: post) ns hca
    obtain ⟨n, ns2, hae, hpost, rfl⟩ := checkArgs_cons_ok P σ (.expr e) post nsr hrest
    obtain ⟨sv, hsv, rfl⟩ : ∃ sv, e.to_variable P σ = .ok sv ∧ n = .leafv sv := by
      simp only [checkArg] at hae
      cases he : e.to_variable P σ with
      | error ee => rw [he] at hae; simp [Except.map] at hae
      | ok sv =>
        rw [he] at hae
        simp only [Except.map, Except.ok.injEq] at hae
        exact ⟨sv, rfl, hae.symm⟩
    have hfields := to_variable_fields P σ e sv hsv
    have hrefs : ∀ i ∈ nodeRefs (Operation.node
        { type := t, args := listToNL (ns1 ++ Node.leafv sv :: ns2), format := "%.4g",
          exponent := 0 }), (σ.setValue k x) i = σ i := by
      intro i hi
      have hi2 : i ∈ refsOfNodes (ns1 ++ Node.leafv sv :: ns2) := by
        simpa [Operation.node, nodeRefs, listRefs_listToNL] using hi
      rw [refsOfNodes_append] at hi2
      have hi3 : i ∈ refsOfArgs pre ∨ i ∈ refsOfArgs post := by
        rcases List.mem_append.mp hi2 with hi2 | hi2
        · exact Or.inl (checkArgs_refs P σ pre ns1 hpre hi2)
        · have : i ∈ refsOfNodes ns2 := by
            simpa [refsOfNodes, List.foldr_cons, nodeRefs] using hi2
          exact Or.inr (checkArgs_refs P σ post ns2 hpost this)
      have hik : i ≠ k := by
        intro hik
        subst hik
        apply hk
        rw [refsOfArgs_append, List.mem_append]
        exact hi3
      simp [Store.setValue, Store.set, hik]
    have hfl := nodeFloat_frame P σ (σ.setValue k x) _ hrefs
    have hsy := nodeStr_frame σ (σ.setValue k x) .symbolic _ hrefs
    have hsu := nodeStr_frame σ (σ.setValue k x) .substituted _ hrefs
    have hsb := nodeIsSymbolic_frame σ (σ.setValue k x) _ hrefs
    refine ⟨⟨sv, hsv, hfields.1, hfields.2.1, hfields.2.2.1, hfields.2.2.2.1,
      hfields.2.2.2.2.1, hfields.2.2.2.2.2.1, hfields.2.2.2.2.2.2⟩, hfl, hsy, hsu, ?_⟩
    simp only [Operation.str_result, Operation.is_symbolic, Operation.str_symbolic,
      Operation.result, hfl, hsy, hsb]


/-- Witness for C6: `Operation("+", 3, expr6)` over `store0`, mutating the
heap variable 0 inside `expr6`. -/
theorem c6_witness :
    (∃ sv, expr6.to_variable ratPrims store0 = .ok sv ∧ sv.name = expr6.name ∧
       sv.unit = expr6.unit ∧ sv.format = expr6.format ∧
       sv.unitFormat = expr6.unitFormat ∧ sv.exponent = expr6.exponent ∧
       (expr6.is_symbolic store0 = true → sv.value = none) ∧
       (∀ r, expr6.is_symbolic store0 = false →
         nodeFloat ratPrims store0 expr6.operation = .ok r →
         sv.value = some (Sum.inl r))) ∧
    nodeFloat ratPrims (store0.setValue 0 (.num 9)) op6.node
      = nodeFloat ratPrims store0 op6.node ∧
    nodeStr (store0.setValue 0 (.num 9)) .symbolic op6.node
      = nodeStr store0 .symbolic op6.node ∧
    nodeStr (store0.setValue 0 (.num 9)) .substituted op6.node
      = nodeStr store0 .substituted op6.node ∧
    Operation.str_result ratPrims (store0.setValue 0 (.num 9)) op6 "" 0
      = Operation.str_result ratPrims store0 op6 "" 0 :=
  c6_expression_snapshot ratPrims store0 "+" [.int 3] [] expr6 op6 0 (.num 9)
    (by with_unfolding_all rfl) (by decide)

/-! ### Claims -/

/-- C8: a leaf `Variable` whose value is absent is symbolic, and both
`str_symbolic` and `str_result` return the brace-wrapped name `{name}`,
whatever format and exponent arguments are passed. -/
theorem c8_symbolic_leaf_renders_brace_name (v : Variable ℚ) (format : String)
    (exponent : ℤ) (h : v.value = none) :
    v.is_symbolic = true ∧
    v.str_symbolic = "\x7b" ++ v.name ++ "\x7d" ∧
    v.str_result format exponent = "\x7b" ++ v.name ++ "\x7d" := by
  refine ⟨?_, rfl, ?_⟩
  · simp [Variable.is_symbolic, h]
  · simp [Variable.str_result, h, Variable.str_symbolic]

/-- Witness for C8 at `Variable("F", None, "kN")`. -/
theorem c8_witness :
    (Variable.init "F" none "kN" "%.4g" mathrmFmt 0).is_symbolic = true ∧
    (Variable.init "F" none "kN" "%.4g" mathrmFmt 0).str_symbolic = "\x7b" ++ "F" ++ "\x7d" ∧
    (Variable.init "F" none "kN" "%.4g" mathrmFmt 0).str_result "" 0 = "\x7b" ++ "F" ++ "\x7d" :=
  c8_symbolic_leaf_renders_brace_name (Variable.init "F" none "kN" "%.4g" mathrmFmt 0)
    "" 0 (by with_unfolding_all rfl)

/-- C9: a leaf `Variable` with a numeric value and (effective) exponent 0
renders `str_result` by magnitude: integer-rounded and parenthesized below
-1000, 4 significant digits and parenthesized in `[-1000, 0)`, 4
significant digits plain in `[0, 1000)`, integer-rounded plain from 1000
up — regardless of the stored format spec. -/
theorem c9_magnitude_dispatch (v : Variable ℚ) (q : ℚ)
    (hv : v.value = some (Sum.inl q)) (he : v.exponent = 0) :
    v.str_result "" 0 =
      if q < -1000 then "\\left( " ++ pyF0space q ++ " \\right)"
      else if q < 0 then "\\left( " ++ pyG4space q ++ " \\right)"
      else if q < 1000 then pyG4space q
      else pyF0space q := by
  simp [Variable.str_result, hv, he]

/-- Witness for C9 at value `1000000000`: the result is integer-rounded, not
put in scientific notation. -/
theorem c9_witness :
    (Variable.init "a" (some 1000000000) "in" "%.4g" mathrmFmt 0).str_result "" 0
      = " 1000000000" :=
  (c9_magnitude_dispatch (Variable.init "a" (some 1000000000) "in" "%.4g" mathrmFmt 0)
      1000000000 (by with_unfolding_all rfl) (by with_unfolding_all rfl)).trans
    (by with_unfolding_all rfl)

/-- C10: assigning a value that fails float coercion through the `value`
property stores the stripped string, and `str_result` then returns it
verbatim behind a single space, for every format and exponent argument. -/
theorem c10_string_value_verbatim (v : Variable ℚ) (s : String) (format : String)
    (exponent : ℤ) (h : pyParseFloat s = none) :
    (v.set_value (.str s)).value = some (Sum.inr (pyStrip s)) ∧
    (v.set_value (.str s)).str_result format exponent = " " ++ pyStrip s := by
  constructor
  · simp [Variable.set_value, h]
  · simp [Variable.set_value, h, Variable.str_result]

/-- Witness for C10 at the string `"unknown"` with a nonempty format and a
nonzero exponent argument. -/
theorem c10_witness :
    ((store0 0).set_value (.str "unknown")).value = some (Sum.inr (pyStrip "unknown")) ∧
    ((store0 0).set_value (.str "unknown")).str_result "%.0f" 2 = " " ++ pyStrip "unknown" :=
  c10_string_value_verbatim (store0 0) "unknown" "%.0f" 2 (by with_unfolding_all rfl)

/-- C3 counterexample: `Variable('x', 5)` has the derived format `%.4g`;
after `v.value = 5000` the claim expects the re-derived `%.0f`, but
`_set_value` never calls `set_format`, so the format is still `%.4g`. -/
theorem c3_counterexample :
    ((Variable.init "x" (some 5) "" "%.4g" mathrmFmt 0).set_value (.num 5000)).format
      = "%.4g" ∧ ("%.4g" : String) ≠ "%.0f" :=
  ⟨by with_unfolding_all rfl, by decide⟩

/-- C3 amended: assigning through the `value` property never touches the
format spec — the magnitude-derived default is computed by `set_format`,
which only the constructor invokes, so after a value mutation the format
is whatever it was before (possibly stale). -/
theorem c3_amended_set_value_keeps_format (v : Variable ℚ) (x : PyAssign) :
    (v.set_value x).format = v.format := by
  cases x with
  | null => rfl
  | num q => rfl
  | str s =>
    simp only [Variable.set_value]
    cases pyParseFloat s <;> rfl

/-- C2 counterexample: `Operation('+', one_argument)` violates the declared
arity of the n-ary tag `+` (at least 2 children), yet the constructor
succeeds: `__init__` checks only tag membership and `__check_args` only
argument types. -/
theorem c2_counterexample :
    (Operation.init ratPrims store0 "+" [.int 1]).isOk = true ∧ arityOk "+" 1 = false :=
  ⟨by with_unfolding_all rfl, by decide⟩

/-- C2 amended: construction fails exactly on an unrecognised tag or an
argument of invalid type; the child count is never validated, so any
arity mismatch with a recognised tag and valid arguments succeeds. -/
theorem c2_amended_no_arity_check (P : MathPrims ℚ) (σ : Store ℚ) (t : String)
    (args : List PyArg) :
    (Operation.init P σ t args).isOk =
      (decide (t ∈ supportedOperations) && args.all fun a => (checkArg P σ a).isOk) := by
  by_cases h : t ∈ supportedOperations
  · simp [Operation.init, h, exceptMap_isOk, checkArgs_isOk]
  · simp [Operation.init, h, Except.isOk, Except.toBool]

/-- C4 counterexample: dividing `Variable('1', 1)` by `Variable('0', 0)`
does not evaluate to an infinity or NaN float — `result()` raises
`ZeroDivisionError`, Python's behavior for float division by zero. -/
theorem c4_counterexample :
    nodeFloat ratPrims store0
      (.op "/" (.cons (.leafv (Variable.init "1" (some 1) "" "%d" mathrmFmt 0))
        (.cons (.leafv (Variable.init "0" (some 0) "" "%d" mathrmFmt 0)) .nil)))
      = .error .zeroDiv := by
  with_unfolding_all rfl

/-- C4 amended: a divide node whose denominator child evaluates to zero
raises `ZeroDivisionError` (the plain `v0 / v1` of the source propagates
the host's behavior, which for Python floats is this distinct exception,
not an infinity or NaN result). -/
theorem c4_amended_zero_denominator_raises {α : Type} [LinearOrderedField α]
    [FloorRing α] (P : MathPrims α) (σ : Store α) (t1 t2 : Node α) (v1 : α)
    (h1 : nodeFloat P σ t1 = .ok v1) (h2 : nodeFloat P σ t2 = .ok 0) :
    nodeFloat P σ (.op "/" (.cons t1 (.cons t2 .nil))) = .error .zeroDiv := by
  have hm : ("/" ∈ supportedOperations) = True := by
    simp [supportedOperations, supportedOperations2]
  simp only [nodeFloat, listFloat, hm, if_true, h1, h2]
  exact if_pos rfl

/-- Witness for C4's amended claim, at `1 / 0` over `ℚ`. -/
theorem c4_amended_witness :
    nodeFloat ratPrims store0
      (.op "/" (.cons (.leafv (Variable.init "1" (some 1) "" "%d" mathrmFmt 0))
        (.cons (.leafv (Variable.init "0" (some 0) "" "%d" mathrmFmt 0)) .nil)))
      = .error .zeroDiv :=
  c4_amended_zero_denominator_raises ratPrims store0
    (.leafv (Variable.init "1" (some 1) "" "%d" mathrmFmt 0))
    (.leafv (Variable.init "0" (some 0) "" "%d" mathrmFmt 0)) 1
    (by with_unfolding_all rfl) (by with_unfolding_all rfl)

/-- C7: `Variable('a', 5) + 2` constructs an addition node whose right child
is the promoted anonymous leaf named by the literal's own print form `2`;
the node evaluates to 7, and the right child renders symbolically as the
literal `{2}` (and substituted as ` 2 \ \mathrm{}`), not as a named
variable. -/
theorem c7_literal_promotion :
    Operation.init ratPrims store0 "+" [.node (.leafv vA7), .int 2] = .ok op7 ∧
    Operation.result ratPrims store0 op7 = .ok 7 ∧
    promoted7.name = "2" ∧
    varStr .symbolic promoted7 = "\x7b2\x7d" ∧
    varStr .substituted promoted7 = " 2 \\ \\mathrm\x7b\x7d" :=
  ⟨by with_unfolding_all rfl, by with_unfolding_all rfl, by with_unfolding_all rfl,
   by with_unfolding_all rfl, by with_unfolding_all rfl⟩

end LatexExpr
